import Mathlib

/-
Verification of the game-master rules engine.

Shallow embedding of the python sources:
  utils/dice.py, models/entities.py, models/states.py, models/actions.py,
  engine/resolution.py, agent/parser.py.

Python integers are modelled as Int (Nat where the source value is a count),
dictionaries with optional keys as Option fields, in-place mutation as
functions returning the updated value, and exceptions as Option results
(none = the python call raises).  Random number generation is modelled by an
explicit draw function passed to the dice roller.
-/

namespace GameMaster

/- ## utils/dice.py -/

/-- Models RollResult in utils/dice.py. -/
structure RollResult where
  total : Int
  rolls : List Int
  modifier : Int
  expression : String
deriving DecidableEq

/-- Models python str.strip(): drop whitespace from both ends of the
character list. -/
def stripChars (cs : List Char) : List Char :=
  ((cs.dropWhile Char.isWhitespace).reverse.dropWhile Char.isWhitespace).reverse

/-- Decimal value of a list of digit characters, as python int() computes it
on a digit string. -/
def digitsToNat (l : List Char) : Nat :=
  l.foldl (fun n c => 10 * n + (c.toNat - '0'.toNat)) 0

/-- Models parse_dice_notation in utils/dice.py: the regex
r"^(\d+)d(\d+)([+\-]\d+)?$" applied to the stripped input, returning
(count, sides, modifier); none models the ValueError raised on no match.
(The name avoids the source suffix; ascii digits model \d.)  The part of the
regex after the literal d - second digit group and optional signed modifier
group - is factored into parse_dice_tail. -/
def parse_dice_tail (d1 : List Char) (rest2 : List Char) : Option (Nat × Nat × Int) :=
  match rest2.takeWhile Char.isDigit, rest2.dropWhile Char.isDigit with
  | [], _ => none
  | c2 :: d2, [] => some (digitsToNat d1, digitsToNat (c2 :: d2), 0)
  | c2 :: d2, '+' :: d3 =>
    if !d3.isEmpty && d3.all Char.isDigit then
      some (digitsToNat d1, digitsToNat (c2 :: d2), (digitsToNat d3 : Int))
    else none
  | c2 :: d2, '-' :: d3 =>
    if !d3.isEmpty && d3.all Char.isDigit then
      some (digitsToNat d1, digitsToNat (c2 :: d2), -(digitsToNat d3 : Int))
    else none
  | _ :: _, _ => none

def parse_dice (s : String) : Option (Nat × Nat × Int) :=
  match (stripChars s.toList).takeWhile Char.isDigit,
        (stripChars s.toList).dropWhile Char.isDigit with
  | [], _ => none
  | c1 :: d1, 'd' :: rest2 => parse_dice_tail (c1 :: d1) rest2
  | _ :: _, _ => none

/-- Declarative reading of the dice regex ^(\d+)d(\d+)([+\-]\d+)?$ with the
values python extracts from the three groups: the stripped input decomposes
into a nonempty digit group, the literal d, a second nonempty digit group and
an optional signed digit group. -/
def dicePattern (s : String) (N M : Nat) (K : Int) : Prop :=
  ∃ d1 d2 t, stripChars s.toList = d1 ++ 'd' :: (d2 ++ t) ∧
    d1 ≠ [] ∧ (∀ c ∈ d1, c.isDigit) ∧
    d2 ≠ [] ∧ (∀ c ∈ d2, c.isDigit) ∧
    N = digitsToNat d1 ∧ M = digitsToNat d2 ∧
    ((t = [] ∧ K = 0) ∨
      (∃ d3, d3 ≠ [] ∧ (∀ c ∈ d3, c.isDigit) ∧
        ((t = '+' :: d3 ∧ K = (digitsToNat d3 : Int)) ∨
         (t = '-' :: d3 ∧ K = -(digitsToNat d3 : Int)))))

/-- Models roll_dice in utils/dice.py.  draw sides i models the i-th call of
rng.randint(1, sides); none models the ValueError on invalid dice strings. -/
def roll_dice (dice_str : String) (draw : Nat → Nat → Nat) : Option RollResult :=
  match parse_dice dice_str with
  | none => none
  | some (count, sides, modifier) =>
    let rolls := (List.range count).map (fun i => (draw sides i : Int))
    some { total := rolls.sum + modifier, rolls := rolls,
           modifier := modifier, expression := dice_str }

/- ## models/entities.py -/

/-- Models EntityType in models/entities.py. -/
inductive EntityType where
  | player
  | enemy
deriving DecidableEq

/-- Models StatusEffect in models/entities.py. -/
structure StatusEffect where
  effect_type : String
  duration : Int
  magnitude : Int
  source_id : Option String
deriving DecidableEq

/-- Models SpellSlots in models/entities.py. -/
structure SpellSlots where
  current : Int
  max : Int
deriving DecidableEq

/-- Models SpellSlots.use_slot: returns whether a slot was consumed together
with the updated slots. -/
def SpellSlots.use_slot (s : SpellSlots) : Bool × SpellSlots :=
  if s.current > 0 then (true, { s with current := s.current - 1 })
  else (false, s)

/-- Models SpellSlots.restore. -/
def SpellSlots.restore (s : SpellSlots) (amount : Int) : SpellSlots :=
  { s with current := min (s.current + amount) s.max }

/-- Models SpellSlots.restore_all. -/
def SpellSlots.restore_all (s : SpellSlots) : SpellSlots :=
  { s with current := s.max }

/-- Models Entity in models/entities.py. -/
structure Entity where
  entity_id : String
  name : String
  entity_type : EntityType
  race : String
  char_class : String
  hp : Int
  max_hp : Int
  ac : Int
  attack_modifier : Int
  known_attacks : List String
  spell_slots : SpellSlots
  known_spells : List String
  status_effects : List StatusEffect
deriving DecidableEq

/-- Models Entity.is_alive. -/
def Entity.is_alive (e : Entity) : Bool :=
  e.hp > 0

/-- Models Entity.take_damage: returns the updated entity and the actual
damage taken. -/
def Entity.take_damage (e : Entity) (amount : Int) : Entity × Int :=
  ({ e with hp := max 0 (e.hp - amount) }, min amount e.hp)

/-- Models Entity.heal: returns the updated entity and the actual healing
applied. -/
def Entity.heal (e : Entity) (amount : Int) : Entity × Int :=
  ({ e with hp := min (e.hp + amount) e.max_hp }, min amount (e.max_hp - e.hp))

/-- Models Entity.add_status_effect. -/
def Entity.add_status_effect (e : Entity) (eff : StatusEffect) : Entity :=
  { e with status_effects := e.status_effects ++ [eff] }

/-- Models Entity.remove_status_effect (the updated entity; the returned
boolean of the source is not needed by any claim). -/
def Entity.remove_status_effect (e : Entity) (t : String) : Entity :=
  { e with status_effects := e.status_effects.filter (fun x => x.effect_type != t) }

/-- Models Entity.get_ac_modifier. -/
def Entity.get_ac_modifier (e : Entity) : Int :=
  e.status_effects.foldl
    (fun m eff =>
      if eff.effect_type = "fortified" then m + eff.magnitude
      else if eff.effect_type = "vulnerable" then m - eff.magnitude
      else m) 0

/-- Models Entity.get_attack_modifier. -/
def Entity.get_attack_modifier (e : Entity) : Int :=
  e.status_effects.foldl
    (fun m eff =>
      if eff.effect_type = "strengthened" then m + eff.magnitude
      else if eff.effect_type = "weakened" then m - eff.magnitude
      else m) e.attack_modifier

/- ## models/states.py -/

/-- Models GameMode in models/states.py. -/
inductive GameMode where
  | exploration
  | encounter
deriving DecidableEq

/-- Models DungeonState in models/states.py. -/
structure DungeonState where
  visited_rooms : List String
  rested_rooms : List String
deriving DecidableEq

/-- Models DungeonState.mark_rested. -/
def DungeonState.mark_rested (d : DungeonState) (room_id : String) : DungeonState :=
  if room_id ∈ d.rested_rooms then d
  else { d with rested_rooms := d.rested_rooms ++ [room_id] }

/-- Models Progression in models/states.py. -/
structure Progression where
  total_rewards : Int
  encounters_cleared : Int
deriving DecidableEq

/-- Models GlobalGameState in models/states.py. -/
structure GlobalGameState where
  game_mode : GameMode
  current_dungeon_id : String
  current_room_id : String
  players : List Entity
  cleared_encounters : List String
  dungeon_state : DungeonState
  progression : Progression
deriving DecidableEq

/-- Models EncounterState in models/states.py. -/
structure EncounterState where
  encounter_id : String
  room_id : String
  round : Int
  entities : List Entity
  initiative_order : List String
  active_entity_id : String
  combat_log : List String
deriving DecidableEq

/-- Models EncounterState.get_entity: the first entity with the given id. -/
def EncounterState.get_entity (s : EncounterState) (entity_id : String) : Option Entity :=
  s.entities.find? (fun e => e.entity_id == entity_id)

/-- Models EncounterState.get_living_enemies. -/
def EncounterState.get_living_enemies (s : EncounterState) : List Entity :=
  s.entities.filter (fun e => e.is_alive && decide (e.entity_type = EntityType.enemy))

/-- Models EncounterState.get_living_players. -/
def EncounterState.get_living_players (s : EncounterState) : List Entity :=
  s.entities.filter (fun e => e.is_alive && decide (e.entity_type = EntityType.player))

/-- Models EncounterState.advance_turn.  The try/except around
initiative_order.index makes the method a no-op when the active id is not in
the order; list.index returns the first occurrence. -/
def EncounterState.advance_turn (s : EncounterState) : EncounterState :=
  if s.active_entity_id ∈ s.initiative_order then
    let current_index := s.initiative_order.indexOf s.active_entity_id
    let next_index := (current_index + 1) % s.initiative_order.length
    { s with
      active_entity_id := s.initiative_order.getD next_index "",
      round := if next_index = 0 then s.round + 1 else s.round }
  else s

/-- In-place mutation of the first entity with a given id, as python mutation
of the object returned by get_entity behaves on the entities list. -/
def updateFirstEntity (es : List Entity) (entity_id : String) (f : Entity → Entity) : List Entity :=
  match es with
  | [] => []
  | e :: rest =>
    if e.entity_id = entity_id then f e :: rest
    else e :: updateFirstEntity rest entity_id f

/-- State after mutating the entity that get_entity would return. -/
def EncounterState.set_entity (s : EncounterState) (entity_id : String) (f : Entity → Entity) : EncounterState :=
  { s with entities := updateFirstEntity s.entities entity_id f }

/- ## models/actions.py -/

/-- Models ActionType in models/actions.py. -/
inductive ActionType where
  | move
  | attack
  | cast_spell
  | rest
  | end_turn
  | explore
deriving DecidableEq

/-- Models Action in models/actions.py.  The parameters dictionary is
flattened into the three optional keys the engine reads (attack_id, spell_id,
rest_type). -/
structure Action where
  actor_id : String
  action_type : ActionType
  target_id : Option String
  attack_id : Option String
  spell_id : Option String
  rest_type : Option String
deriving DecidableEq

/- ## models/data_loader.py content records -/

/-- Models the status-effect payload dictionaries attached to spells and
attacks; every key is read with .get and a default, hence optional. -/
structure StatusPayload where
  type : Option String
  duration : Option Int
  magnitude : Option Int
deriving DecidableEq

/-- Models a spell dictionary as engine/resolution.py reads it: name and
category are required keys, target is read with .get, damage and heal are
required in their branches (none models a KeyError there), status_effect is
read with .get. -/
structure Spell where
  name : String
  category : String
  target : Option String
  damage : Option String
  heal : Option String
  status_effect : Option StatusPayload
deriving DecidableEq

/-- Models an attack dictionary as engine/resolution.py reads it. -/
structure Attack where
  name : String
  damage : Option String
  to_hit_modifier : Option Int
  status_effect : Option StatusPayload
deriving DecidableEq

/-- Models DataLoader lookups by id (dict.get on the loaded tables). -/
structure DataLoader where
  spells : List (String × Spell)
  attacks : List (String × Attack)

/-- Models DataLoader.get_spell applied to the possibly missing spell_id
parameter. -/
def DataLoader.get_spell (dl : DataLoader) (spell_id : Option String) : Option Spell :=
  spell_id.bind (fun i => (dl.spells.find? (fun p => p.1 == i)).map Prod.snd)

/-- Models DataLoader.get_attack applied to the possibly missing attack_id
parameter. -/
def DataLoader.get_attack (dl : DataLoader) (attack_id : Option String) : Option Attack :=
  attack_id.bind (fun i => (dl.attacks.find? (fun p => p.1 == i)).map Prod.snd)

/- ## engine/resolution.py -/

/-- Models ResolutionResult in engine/resolution.py (the details dictionary
carries no state and is omitted). -/
structure ResolutionResult where
  success : Bool
  narration : String
deriving DecidableEq

/-- Models ResolutionEngine._apply_status_effect restricted to one target
entity: build the effect from the payload with the source defaults, remove
every prior effect of the same type, then append the new one. -/
def apply_status_effect (target : Entity) (payload : StatusPayload)
    (source_id : Option String) : Entity :=
  let effect : StatusEffect :=
    { effect_type := payload.type.getD "unknown",
      duration := payload.duration.getD 1,
      magnitude := payload.magnitude.getD 1,
      source_id := source_id }
  (target.remove_status_effect effect.effect_type).add_status_effect effect

/-- Models ResolutionEngine._select_spell_targets. -/
def select_spell_targets (spell : Spell) (target_id : Option String)
    (state : EncounterState) (actor : Entity) : List Entity :=
  match spell.target with
  | some "self" => [actor]
  | some "enemy" =>
    match state.get_entity (target_id.getD "") with
    | some t => [t]
    | none => []
  | some "ally" =>
    match state.get_entity (target_id.getD "") with
    | some t => [t]
    | none => []
  | some "enemies" => state.get_living_enemies
  | some "allies" => state.get_living_players
  | _ => []

/-- Models ResolutionEngine._resolve_attack.  d20roll is the value returned
by roll_d20, draw feeds the damage dice; the result pairs the
ResolutionResult with the mutated encounter state, and none models an
uncaught exception (missing damage key or invalid dice notation). -/
def resolve_attack (dl : DataLoader) (d20roll : Nat) (draw : Nat → Nat → Nat)
    (action : Action) (state : EncounterState) :
    Option (ResolutionResult × EncounterState) :=
  match state.get_entity action.actor_id,
        state.get_entity (action.target_id.getD "") with
  | some actor, some target =>
    match dl.get_attack action.attack_id with
    | none =>
      some ({ success := false, narration := "Attack failed: attack data not found." }, state)
    | some attack =>
      let roll : Int := d20roll
      let to_hit_modifier := attack.to_hit_modifier.getD 0
      let total_to_hit := roll + actor.get_attack_modifier + to_hit_modifier
      let target_ac := target.ac + target.get_ac_modifier
      if total_to_hit ≥ target_ac then
        match attack.damage with
        | none => none
        | some dmg_str =>
          match roll_dice dmg_str draw with
          | none => none
          | some damage_roll =>
            let state₁ := state.set_entity target.entity_id
              (fun t => (t.take_damage damage_roll.total).1)
            let state₂ :=
              match attack.status_effect with
              | some payload =>
                state₁.set_entity target.entity_id
                  (fun t => apply_status_effect t payload (some actor.entity_id))
              | none => state₁
            some ({ success := true,
                    narration := actor.name ++ " hits " ++ target.name ++ "." }, state₂)
      else
        some ({ success := true,
                narration := actor.name ++ " misses " ++ target.name ++ "." }, state)
  | _, _ =>
    some ({ success := false, narration := "Attack failed: invalid actor or target." }, state)

/-- Models ResolutionEngine._resolve_cast_spell.  none models an uncaught
exception (missing damage or heal key, or invalid dice notation). -/
def resolve_cast_spell (dl : DataLoader) (draw : Nat → Nat → Nat)
    (action : Action) (state : EncounterState) :
    Option (ResolutionResult × EncounterState) :=
  match state.get_entity action.actor_id with
  | none => some ({ success := false, narration := "Spell failed: invalid actor." }, state)
  | some actor =>
    match dl.get_spell action.spell_id with
    | none => some ({ success := false, narration := "Spell failed: spell data not found." }, state)
    | some spell =>
      let used := actor.spell_slots.use_slot
      if used.1 = false then
        some ({ success := false, narration := "Spell failed: no spell slots available." }, state)
      else
        let actor₁ := { actor with spell_slots := used.2 }
        let state₁ := state.set_entity action.actor_id (fun _ => actor₁)
        let targets := select_spell_targets spell action.target_id state₁ actor₁
        if targets.isEmpty then
          some ({ success := false, narration := "Spell failed: no valid targets." }, state₁)
        else if spell.category = "damage" then
          match spell.damage with
          | none => none
          | some dmg_str =>
            match roll_dice dmg_str draw with
            | none => none
            | some damage_roll =>
              let state₂ := targets.foldl
                (fun st t => st.set_entity t.entity_id
                  (fun e => (e.take_damage damage_roll.total).1)) state₁
              some ({ success := true, narration := actor₁.name ++ " casts " ++ spell.name ++ "." }, state₂)
        else if spell.category = "heal" then
          match spell.heal with
          | none => none
          | some heal_str =>
            match roll_dice heal_str draw with
            | none => none
            | some heal_roll =>
              let state₂ := targets.foldl
                (fun st t => st.set_entity t.entity_id
                  (fun e => (e.heal heal_roll.total).1)) state₁
              some ({ success := true, narration := actor₁.name ++ " casts " ++ spell.name ++ "." }, state₂)
        else if spell.category = "status" then
          match spell.status_effect with
          | none => some ({ success := false, narration := "Spell failed: missing status effect." }, state₁)
          | some payload =>
            let state₂ := targets.foldl
              (fun st t => st.set_entity t.entity_id
                (fun e => apply_status_effect e payload (some actor₁.entity_id))) state₁
            some ({ success := true, narration := actor₁.name ++ " casts " ++ spell.name ++ "." }, state₂)
        else
          some ({ success := false, narration := "Spell failed: unknown category." }, state₁)

/-- Shape of one player after a short rest in _resolve_rest:
heal max(1, int(max_hp * 0.25)) — truncating division by 4, exact because
0.25 is a binary power — then restore one spell slot when max slots > 0. -/
def short_rest_player (p : Entity) : Entity :=
  let heal_amount := max 1 (p.max_hp.tdiv 4)
  let p₁ := (p.heal heal_amount).1
  if p₁.spell_slots.max > 0 then { p₁ with spell_slots := p₁.spell_slots.restore 1 }
  else p₁

/-- Shape of one player after a long rest in _resolve_rest: hp set to max_hp
and all spell slots restored. -/
def long_rest_player (p : Entity) : Entity :=
  { p with hp := p.max_hp, spell_slots := p.spell_slots.restore_all }

/-- Models ResolutionEngine._resolve_rest.  RestType(value) raises ValueError
unless the parameter is "short" or "long" (none models that raise); the loop
runs over every player of the global state. -/
def resolve_rest (action : Action) (state : GlobalGameState) :
    Option (ResolutionResult × GlobalGameState) :=
  match action.rest_type with
  | none => none
  | some rt =>
    if rt = "short" ∨ rt = "long" then
      let players₁ := state.players.map
        (fun p => if rt = "short" then short_rest_player p else long_rest_player p)
      let state₁ := { state with
        players := players₁,
        dungeon_state := state.dungeon_state.mark_rested state.current_room_id }
      some ({ success := true,
              narration := if rt = "short" then "The party takes a short rest."
                           else "The party takes a long rest." }, state₁)
    else none

/-- Models ResolutionEngine.resolve_action: dispatch on game mode and action
type; returns the result with the updated global and encounter states. -/
def resolve_action (dl : DataLoader) (d20roll : Nat) (draw : Nat → Nat → Nat)
    (action : Action) (global_state : GlobalGameState)
    (encounter_state : Option EncounterState) :
    Option (ResolutionResult × GlobalGameState × Option EncounterState) :=
  match global_state.game_mode with
  | GameMode.exploration =>
    if action.action_type = ActionType.rest then
      (resolve_rest action global_state).map (fun r => (r.1, r.2, encounter_state))
    else
      some ({ success := false,
              narration := "Exploration actions are resolved in the exploration engine." },
        global_state, encounter_state)
  | GameMode.encounter =>
    match encounter_state with
    | none =>
      some ({ success := false,
              narration := "Encounter state is required to resolve combat actions." },
        global_state, none)
    | some st =>
      if action.action_type = ActionType.attack then
        (resolve_attack dl d20roll draw action st).map (fun r => (r.1, global_state, some r.2))
      else if action.action_type = ActionType.cast_spell then
        (resolve_cast_spell dl draw action st).map (fun r => (r.1, global_state, some r.2))
      else if action.action_type = ActionType.end_turn then
        some ({ success := true, narration := "Turn ended." }, global_state, some st.advance_turn)
      else
        some ({ success := false, narration := "Unsupported action type." }, global_state, some st)

/- ## agent/parser.py -/

/-- Models the _INTENT_KEYWORDS table of IntentParser, in declaration
order. -/
def intent_keywords : List (String × List String) :=
  [("move", ["move", "go", "walk", "run", "head", "travel", "enter", "leave"]),
   ("attack", ["attack", "hit", "strike", "slash", "stab", "smash", "shoot"]),
   ("cast_spell", ["cast", "spell", "magic", "conjure", "incant"]),
   ("rest", ["rest", "sleep", "camp", "recover"]),
   ("end_turn", ["end turn", "end my turn", "finish", "done", "pass", "wait"]),
   ("explore", ["explore", "look", "inspect", "examine", "search", "observe"])]

/-- Models IntentParser._score_intents.  phrase_hit abstracts
_contains_phrase applied to the normalized text, spell_match, attack_match
and room_match abstract the three name matches, end_turn_phrase abstracts
the literal "end turn"/"end my turn" substring test; scores are the exact
rationals the float arithmetic of the source produces. -/
def score_intents (phrase_hit : String → Bool)
    (spell_match attack_match room_match end_turn_phrase : Bool) :
    List (String × Nat) :=
  intent_keywords.map (fun p =>
    (p.1, p.2.countP phrase_hit
      + (if spell_match && (p.1 == "cast_spell") then 3 else 0)
      + (if attack_match && (p.1 == "attack") then 3 else 0)
      + (if room_match && (p.1 == "move") then 2 else 0)
      + (if end_turn_phrase && (p.1 == "end_turn") then 3 else 0)))

/-- Models IntentParser._pick_intent: sort the score items descending by
score (stably, like python sorted), take the top and second scores, and
return (intent, confidence, is_ambiguous). -/
def pick_intent (scores : List (String × Nat)) : String × ℚ × Bool :=
  match scores with
  | [] => ("unknown", 0, false)
  | s₀ :: rest =>
    let sorted := (s₀ :: rest).insertionSort (fun a b => b.2 ≤ a.2)
    let top := sorted.headD ("unknown", 0)
    let second_score := ((sorted.drop 1).headD ("", 0)).2
    if top.2 ≤ 0 then ("unknown", 0, false)
    else
      let is_ambiguous := decide (top.2 = second_score)
      let confidence := if top.2 = second_score then (6 / 10 : ℚ)
                        else min 1 (1 / 2 + (top.2 : ℚ) / 6)
      (top.1, confidence, is_ambiguous)

/- ## Concrete fixtures used by witnesses and counterexamples -/

/-- Fixture mage with no remaining spell slots. -/
def c2Actor : Entity :=
  { entity_id := "p1", name := "Arin", entity_type := EntityType.player,
    race := "Human", char_class := "Mage", hp := 10, max_hp := 10, ac := 12,
    attack_modifier := 2, known_attacks := [], spell_slots := { current := 0, max := 2 },
    known_spells := ["fire_bolt"], status_effects := [] }

/-- Fixture single-target damage spell. -/
def c2Spell : Spell :=
  { name := "Fire Bolt", category := "damage", target := some "enemy",
    damage := some "1d10", heal := none, status_effect := none }

/-- Fixture content table holding the one spell. -/
def c2Loader : DataLoader :=
  { spells := [("fire_bolt", c2Spell)], attacks := [] }

/-- Fixture encounter containing only the mage. -/
def c2State : EncounterState :=
  { encounter_id := "e1", room_id := "r1", round := 1, entities := [c2Actor],
    initiative_order := ["p1"], active_entity_id := "p1", combat_log := [] }

/-- Fixture cast action for the mage. -/
def c2Action : Action :=
  { actor_id := "p1", action_type := ActionType.cast_spell, target_id := some "p1",
    attack_id := none, spell_id := some "fire_bolt", rest_type := none }

/-- Fixture mage with one remaining spell slot. -/
def c9Actor : Entity :=
  { entity_id := "p2", name := "Mara", entity_type := EntityType.player,
    race := "Elf", char_class := "Mage", hp := 8, max_hp := 10, ac := 11,
    attack_modifier := 1, known_attacks := [], spell_slots := { current := 1, max := 2 },
    known_spells := ["bad_sleep"], status_effects := [] }

/-- Fixture status spell whose payload is missing. -/
def c9Spell : Spell :=
  { name := "Bad Sleep", category := "status", target := some "self",
    damage := none, heal := none, status_effect := none }

/-- Fixture content table holding the broken status spell. -/
def c9Loader : DataLoader :=
  { spells := [("bad_sleep", c9Spell)], attacks := [] }

/-- Fixture encounter containing only the one-slot mage. -/
def c9State : EncounterState :=
  { encounter_id := "e9", room_id := "r1", round := 1, entities := [c9Actor],
    initiative_order := ["p2"], active_entity_id := "p2", combat_log := [] }

/-- Fixture cast action for the broken status spell. -/
def c9Action : Action :=
  { actor_id := "p2", action_type := ActionType.cast_spell, target_id := none,
    attack_id := none, spell_id := some "bad_sleep", rest_type := none }

/-- Fixture dead player (hp = 0). -/
def restDeadPlayer : Entity :=
  { entity_id := "p3", name := "Finn", entity_type := EntityType.player,
    race := "Human", char_class := "Rogue", hp := 0, max_hp := 10, ac := 13,
    attack_modifier := 3, known_attacks := [], spell_slots := { current := 0, max := 2 },
    known_spells := [], status_effects := [] }

/-- Fixture empty content table for the rest claims. -/
def restLoader : DataLoader :=
  { spells := [], attacks := [] }

/-- Fixture exploration state whose only party member is dead. -/
def restCexState : GlobalGameState :=
  { game_mode := GameMode.exploration, current_dungeon_id := "d1",
    current_room_id := "r1", players := [restDeadPlayer],
    cleared_encounters := [], dungeon_state := { visited_rooms := [], rested_rooms := [] },
    progression := { total_rewards := 0, encounters_cleared := 0 } }

/-- Fixture short-rest action. -/
def restCexAction : Action :=
  { actor_id := "p3", action_type := ActionType.rest, target_id := none,
    attack_id := none, spell_id := none, rest_type := some "short" }

/-- Fixture attacker. -/
def c1Actor : Entity :=
  { entity_id := "hero", name := "Arin", entity_type := EntityType.player,
    race := "Human", char_class := "Fighter", hp := 18, max_hp := 18, ac := 12,
    attack_modifier := 2, known_attacks := ["staff_strike"],
    spell_slots := { current := 0, max := 0 }, known_spells := [],
    status_effects := [] }

/-- Fixture attack target. -/
def c1Target : Entity :=
  { entity_id := "gob", name := "Goblin", entity_type := EntityType.enemy,
    race := "Goblin", char_class := "Fighter", hp := 8, max_hp := 8, ac := 11,
    attack_modifier := 1, known_attacks := [], spell_slots := { current := 0, max := 0 },
    known_spells := [], status_effects := [] }

/-- Fixture attack with a stun rider. -/
def c1Attack : Attack :=
  { name := "Staff Strike", damage := some "1d6+1", to_hit_modifier := some 2,
    status_effect := some { type := some "stunned", duration := some 1, magnitude := some 1 } }

/-- Fixture content table holding the attack. -/
def c1Loader : DataLoader :=
  { spells := [], attacks := [("staff_strike", c1Attack)] }

/-- Fixture encounter with attacker and target. -/
def c1State : EncounterState :=
  { encounter_id := "e2", room_id := "r1", round := 1,
    entities := [c1Actor, c1Target], initiative_order := ["hero", "gob"],
    active_entity_id := "hero", combat_log := [] }

/-- Fixture attack action. -/
def c1Action : Action :=
  { actor_id := "hero", action_type := ActionType.attack, target_id := some "gob",
    attack_id := some "staff_strike", spell_id := none, rest_type := none }

/-- Fixture damage roll produced by a draw function that always returns 4. -/
def c1Roll : RollResult :=
  { total := 5, rolls := [4], modifier := 1, expression := "1d6+1" }

/-- Fixture encounter for the turn-cycle witness. -/
def c4State : EncounterState :=
  { encounter_id := "e4", room_id := "r1", round := 5, entities := [],
    initiative_order := ["p1", "gob1"], active_entity_id := "p1",
    combat_log := [] }

/- ## Shared helper lemmas -/

/-- Mutating the entity that get_entity finds is visible through get_entity,
provided the mutation keeps the entity id. -/
lemma updateFirst_find? (es : List Entity) (entity_id : String) (f : Entity → Entity)
    (e : Entity) (hf : ∀ x, (f x).entity_id = x.entity_id)
    (h : es.find? (fun x => x.entity_id == entity_id) = some e) :
    (updateFirstEntity es entity_id f).find? (fun x => x.entity_id == entity_id) = some (f e) := by
  induction es with
  | nil => simp at h
  | cons a rest ih =>
    rw [List.find?_cons] at h
    by_cases ha : a.entity_id = entity_id
    · have hpa : (a.entity_id == entity_id) = true := by simp [ha]
      rw [hpa] at h
      have he : a = e := by
        have h' : some a = some e := h
        injection h'
      subst he
      have hgoal : updateFirstEntity (a :: rest) entity_id f = f a :: rest := by
        unfold updateFirstEntity; rw [if_pos ha]
      rw [hgoal, List.find?_cons]
      have hfa : ((f a).entity_id == entity_id) = true := by rw [hf]; exact hpa
      rw [hfa]
    · have hpa : (a.entity_id == entity_id) = false := by simp [ha]
      rw [hpa] at h
      have h' : rest.find? (fun x => x.entity_id == entity_id) = some e := h
      have hgoal : updateFirstEntity (a :: rest) entity_id f =
          a :: updateFirstEntity rest entity_id f := by
        show (if a.entity_id = entity_id then f a :: rest
              else a :: updateFirstEntity rest entity_id f) =
          a :: updateFirstEntity rest entity_id f
        rw [if_neg ha]
      rw [hgoal, List.find?_cons, hpa]
      exact ih h'

/-- State-level version of updateFirst_find?. -/
lemma get_entity_set_entity (s : EncounterState) (entity_id : String)
    (f : Entity → Entity) (e : Entity) (hf : ∀ x, (f x).entity_id = x.entity_id)
    (h : s.get_entity entity_id = some e) :
    (s.set_entity entity_id f).get_entity entity_id = some (f e) :=
  updateFirst_find? s.entities entity_id f e hf h

/-- An entity returned by get_entity carries the id it was looked up by. -/
lemma get_entity_id (s : EncounterState) (entity_id : String) (e : Entity)
    (h : s.get_entity entity_id = some e) : e.entity_id = entity_id := by
  have := List.find?_some h
  simpa using this

/-- Single step of advance_turn from a position known by index. -/
lemma advance_turn_step (s : EncounterState) (i : Nat)
    (hi : i < s.initiative_order.length) (hnd : s.initiative_order.Nodup)
    (hact : s.active_entity_id = s.initiative_order.getD i "") :
    s.advance_turn = { s with
      active_entity_id :=
        s.initiative_order.getD ((i + 1) % s.initiative_order.length) "",
      round := if (i + 1) % s.initiative_order.length = 0 then s.round + 1
               else s.round } := by
  have hget : s.initiative_order.getD i "" = s.initiative_order[i] :=
    List.getD_eq_getElem _ _ hi
  have hmem : s.active_entity_id ∈ s.initiative_order := by
    rw [hact, hget]
    exact List.getElem_mem hi
  have hidx : s.initiative_order.indexOf s.active_entity_id = i := by
    rw [hact, hget]
    exact List.indexOf_getElem hnd i hi
  unfold EncounterState.advance_turn
  rw [if_pos hmem, hidx]

/-- Iterating advance_turn k times from index i: the active id moves to
index (i + k) mod n and the round grows by (i + k) div n. -/
lemma advance_turn_iterate (k : Nat) :
    ∀ (s : EncounterState) (i : Nat),
      i < s.initiative_order.length → s.initiative_order.Nodup →
      s.active_entity_id = s.initiative_order.getD i "" →
      ((EncounterState.advance_turn)^[k] s).initiative_order = s.initiative_order ∧
      ((EncounterState.advance_turn)^[k] s).active_entity_id =
        s.initiative_order.getD ((i + k) % s.initiative_order.length) "" ∧
      ((EncounterState.advance_turn)^[k] s).round =
        s.round + (((i + k) / s.initiative_order.length : Nat) : Int) := by
  induction k with
  | zero =>
    intro s i hi hnd hact
    refine ⟨rfl, ?_, ?_⟩
    · rw [Nat.add_zero, Nat.mod_eq_of_lt hi]
      exact hact
    · rw [Nat.add_zero, Nat.div_eq_of_lt hi]
      simp
  | succ k ih =>
    intro s i hi hnd hact
    have hn : 0 < s.initiative_order.length := Nat.lt_of_le_of_lt (Nat.zero_le i) hi
    have hstep := advance_turn_step s i hi hnd hact
    rw [Function.iterate_succ_apply, hstep]
    set n := s.initiative_order.length with hn_def
    have hi' : (i + 1) % n < n := Nat.mod_lt _ hn
    obtain ⟨h1, h2, h3⟩ := ih
      { s with
        active_entity_id := s.initiative_order.getD ((i + 1) % n) "",
        round := if (i + 1) % n = 0 then s.round + 1 else s.round }
      ((i + 1) % n) hi' hnd rfl
    refine ⟨h1, ?_, ?_⟩
    · rw [h2]
      have : ((i + 1) % n + k) % n = (i + (k + 1)) % n := by
        rw [Nat.mod_add_mod]
        congr 1
        omega
      rw [this]
    · rw [h3]
      by_cases hwrap : (i + 1) % n = 0
      · have hin : i + 1 = n := by
          have := Nat.le_of_lt_succ (Nat.succ_lt_succ hi)
          rcases Nat.lt_or_ge (i + 1) n with hlt | hge
          · rw [Nat.mod_eq_of_lt hlt] at hwrap
            omega
          · omega
        rw [if_pos hwrap, hwrap]
        have hdiv : (i + (k + 1)) / n = k / n + 1 := by
          have : i + (k + 1) = k + n := by omega
          rw [this, Nat.add_div_right _ hn]
        rw [hdiv]
        push_cast
        ring_nf
      · have hlt : i + 1 < n := by
          rcases Nat.lt_or_ge (i + 1) n with hlt | hge
          · exact hlt
          · have : i + 1 = n := by omega
            rw [this, Nat.mod_self] at hwrap
            omega
        rw [if_neg hwrap, Nat.mod_eq_of_lt hlt]
        have : i + 1 + k = i + (k + 1) := by omega
        rw [this]

/-- takeWhile/dropWhile split of a list whose prefix satisfies the predicate
everywhere and whose remainder is empty or starts with a failing element. -/
lemma takeWhile_all_append (p : Char → Bool) (a b : List Char)
    (ha : ∀ c ∈ a, p c = true)
    (hb : b = [] ∨ ∃ x t, b = x :: t ∧ p x = false) :
    (a ++ b).takeWhile p = a ∧ (a ++ b).dropWhile p = b := by
  induction a with
  | nil =>
    simp only [List.nil_append]
    rcases hb with rfl | ⟨x, t, rfl, hx⟩
    · simp
    · rw [List.takeWhile_cons, List.dropWhile_cons]
      simp [hx]
  | cons c a ih =>
    have hc : p c = true := ha c (by simp)
    have ha' : ∀ d ∈ a, p d = true := fun d hd => ha d (by simp [hd])
    obtain ⟨h1, h2⟩ := ih ha'
    constructor
    · rw [List.cons_append, List.takeWhile_cons, hc]
      simp [h1]
    · rw [List.cons_append, List.dropWhile_cons, hc]
      simp [h2]

/-- Soundness of the dice parser: a successful parse exhibits the regex
decomposition with the extracted values. -/
lemma parse_dice_sound (s : String) (N M : Nat) (K : Int)
    (h : parse_dice s = some (N, M, K)) : dicePattern s N M K := by
  have hsplit := List.takeWhile_append_dropWhile Char.isDigit (stripChars s.toList)
  unfold parse_dice at h
  split at h
  · exact absurd h (by simp)
  · rename_i c1 d1 rest2 heq1 heq2
    have hcs : stripChars s.toList = (c1 :: d1) ++ 'd' :: rest2 := by
      rw [← hsplit, heq1, heq2]
    have hall1 : ∀ c ∈ c1 :: d1, c.isDigit = true := by
      intro c hc
      exact List.mem_takeWhile_imp (heq1 ▸ hc)
    have hsplit2 := List.takeWhile_append_dropWhile Char.isDigit rest2
    unfold parse_dice_tail at h
    split at h
    · exact absurd h (by simp)
    · rename_i c2 d2 heq3 heq4
      simp only [Option.some.injEq, Prod.mk.injEq] at h
      obtain ⟨hN, hM, hK⟩ := h
      have hall2 : ∀ c ∈ c2 :: d2, c.isDigit = true := by
        intro c hc
        exact List.mem_takeWhile_imp (heq3 ▸ hc)
      refine ⟨c1 :: d1, c2 :: d2, [], ?_, by simp, hall1, by simp, hall2,
        hN.symm, hM.symm, Or.inl ⟨rfl, hK.symm⟩⟩
      rw [hcs]
      have : rest2 = (c2 :: d2) ++ [] := by
        rw [← hsplit2, heq3, heq4]
      rw [this]
    · rename_i c2 d2 d3 heq3 heq4
      split at h
      · rename_i hcond
        simp only [Option.some.injEq, Prod.mk.injEq] at h
        obtain ⟨hN, hM, hK⟩ := h
        simp only [Bool.and_eq_true, Bool.not_eq_eq_eq_not, Bool.not_true,
          List.isEmpty_eq_false, List.all_eq_true] at hcond
        have hall2 : ∀ c ∈ c2 :: d2, c.isDigit = true := by
          intro c hc
          exact List.mem_takeWhile_imp (heq3 ▸ hc)
        refine ⟨c1 :: d1, c2 :: d2, '+' :: d3, ?_, by simp, hall1, by simp, hall2,
          hN.symm, hM.symm,
          Or.inr ⟨d3, hcond.1, hcond.2, Or.inl ⟨rfl, hK.symm⟩⟩⟩
        rw [hcs]
        have : rest2 = (c2 :: d2) ++ '+' :: d3 := by
          rw [← hsplit2, heq3, heq4]
        rw [this]
      · exact absurd h (by simp)
    · rename_i c2 d2 d3 heq3 heq4
      split at h
      · rename_i hcond
        simp only [Option.some.injEq, Prod.mk.injEq] at h
        obtain ⟨hN, hM, hK⟩ := h
        simp only [Bool.and_eq_true, Bool.not_eq_eq_eq_not, Bool.not_true,
          List.isEmpty_eq_false, List.all_eq_true] at hcond
        have hall2 : ∀ c ∈ c2 :: d2, c.isDigit = true := by
          intro c hc
          exact List.mem_takeWhile_imp (heq3 ▸ hc)
        refine ⟨c1 :: d1, c2 :: d2, '-' :: d3, ?_, by simp, hall1, by simp, hall2,
          hN.symm, hM.symm,
          Or.inr ⟨d3, hcond.1, hcond.2, Or.inr ⟨rfl, hK.symm⟩⟩⟩
        rw [hcs]
        have : rest2 = (c2 :: d2) ++ '-' :: d3 := by
          rw [← hsplit2, heq3, heq4]
        rw [this]
      · exact absurd h (by simp)
    · exact absurd h (by simp)
  · exact absurd h (by simp)

/-- Completeness of the dice parser: every regex decomposition parses to the
extracted values. -/
lemma parse_dice_complete (s : String) (N M : Nat) (K : Int)
    (hp : dicePattern s N M K) : parse_dice s = some (N, M, K) := by
  obtain ⟨d1, d2, t, hcs, hd1ne, hd1dig, hd2ne, hd2dig, hN, hM, hK⟩ := hp
  obtain ⟨c1, d1t, rfl⟩ := List.exists_cons_of_ne_nil hd1ne
  obtain ⟨c2, d2t, rfl⟩ := List.exists_cons_of_ne_nil hd2ne
  have h1 := takeWhile_all_append Char.isDigit (c1 :: d1t) ('d' :: ((c2 :: d2t) ++ t))
    hd1dig (Or.inr ⟨'d', _, rfl, by decide⟩)
  have h2 : ((c2 :: d2t) ++ t).takeWhile Char.isDigit = c2 :: d2t ∧
      ((c2 :: d2t) ++ t).dropWhile Char.isDigit = t := by
    apply takeWhile_all_append _ _ _ hd2dig
    rcases hK with ⟨rfl, _⟩ | ⟨d3, _, _, hsign⟩
    · exact Or.inl rfl
    · rcases hsign with ⟨rfl, _⟩ | ⟨rfl, _⟩
      · exact Or.inr ⟨'+', d3, rfl, by decide⟩
      · exact Or.inr ⟨'-', d3, rfl, by decide⟩
  have houter : parse_dice s = parse_dice_tail (c1 :: d1t) ((c2 :: d2t) ++ t) := by
    unfold parse_dice
    rw [hcs, h1.1, h1.2]
    exact rfl
  rw [houter]
  unfold parse_dice_tail
  rw [h2.1, h2.2]
  rcases hK with ⟨rfl, hK0⟩ | ⟨d3, hd3ne, hd3dig, hsign⟩
  · subst hN hM hK0
    rfl
  · have hcond : (!d3.isEmpty && d3.all Char.isDigit) = true := by
      simp only [Bool.and_eq_true, Bool.not_eq_eq_eq_not, Bool.not_true,
        List.isEmpty_eq_false, List.all_eq_true]
      exact ⟨hd3ne, hd3dig⟩
    rcases hsign with ⟨rfl, hKv⟩ | ⟨rfl, hKv⟩
    · subst hN hM hKv
      simp [hcond]
    · subst hN hM hKv
      simp [hcond]

/- ## Claim theorems -/

/-- C6.  Entity.take_damage leaves hp = max(0, hp_before - amount), never
negative, and returns min(amount, hp_before); Entity.heal leaves
hp = min(hp_before + amount, max_hp), never above max_hp, and returns
min(amount, max_hp - hp_before). -/
theorem hp_clamp_spec (e : Entity) (amount : Int) :
    ((e.take_damage amount).1.hp = max 0 (e.hp - amount) ∧
     (e.take_damage amount).2 = min amount e.hp ∧
     0 ≤ (e.take_damage amount).1.hp) ∧
    ((e.heal amount).1.hp = min (e.hp + amount) e.max_hp ∧
     (e.heal amount).2 = min amount (e.max_hp - e.hp) ∧
     (e.heal amount).1.hp ≤ e.max_hp) := by
  refine ⟨⟨rfl, rfl, ?_⟩, ⟨rfl, rfl, ?_⟩⟩
  · exact le_max_left 0 (e.hp - amount)
  · exact min_le_right (e.hp + amount) e.max_hp

/-- C10.  When the active entity id does not occur in the initiative order
(the empty order included), advance_turn is a total no-op: no error and no
field changes. -/
theorem advance_turn_missing_active_noop (s : EncounterState)
    (h : s.active_entity_id ∉ s.initiative_order) :
    s.advance_turn = s := by
  unfold EncounterState.advance_turn
  rw [if_neg h]

/-- Witness for C10 at a concrete state whose active id is absent from the
order. -/
theorem advance_turn_missing_active_noop_witness :
    "zz" ∉ ["goblin_1", "p1"] ∧
    EncounterState.advance_turn
      { encounter_id := "e1", room_id := "r1", round := 3, entities := [],
        initiative_order := ["goblin_1", "p1"], active_entity_id := "zz",
        combat_log := [] } =
      { encounter_id := "e1", room_id := "r1", round := 3, entities := [],
        initiative_order := ["goblin_1", "p1"], active_entity_id := "zz",
        combat_log := [] } :=
  ⟨by decide, advance_turn_missing_active_noop _ (by decide)⟩

/-- C5.  Applying a status-effect payload through the resolution engine
(_apply_status_effect, the single path used by attack riders and status
spells) leaves exactly one status effect of the payload type on the entity:
prior instances are removed, the new one appended. -/
theorem status_effect_replaces (e : Entity) (payload : StatusPayload)
    (src : Option String) :
    ((apply_status_effect e payload src).status_effects.countP
      (fun x => x.effect_type == payload.type.getD "unknown")) = 1 := by
  unfold apply_status_effect Entity.remove_status_effect Entity.add_status_effect
  rw [List.countP_append]
  have h1 : (e.status_effects.filter
      (fun x => x.effect_type != payload.type.getD "unknown")).countP
      (fun x => x.effect_type == payload.type.getD "unknown") = 0 := by
    rw [List.countP_eq_zero]
    intro a ha
    have := List.of_mem_filter ha
    simpa using this
  rw [h1]
  simp [List.countP_cons]

/-- C2.  Casting a spell with actor.spell_slots.current = 0 (actor and spell
lookups succeeding) returns success = false and leaves the whole encounter
state unchanged: no HP mutation, no status effect, no slot decrement. -/
theorem cast_spell_no_slots (dl : DataLoader) (draw : Nat → Nat → Nat)
    (action : Action) (state : EncounterState) (actor : Entity) (spell : Spell)
    (h_actor : state.get_entity action.actor_id = some actor)
    (h_spell : dl.get_spell action.spell_id = some spell)
    (h0 : actor.spell_slots.current = 0) :
    resolve_cast_spell dl draw action state =
      some ({ success := false, narration := "Spell failed: no spell slots available." },
        state) := by
  have huse : actor.spell_slots.use_slot = (false, actor.spell_slots) := by
    unfold SpellSlots.use_slot
    rw [if_neg (by rw [h0]; exact lt_irrefl 0)]
  unfold resolve_cast_spell
  rw [h_actor, h_spell]
  simp [huse]

/-- Witness for C2: a mage with zero current slots casting a known damage
spell; the state is returned untouched. -/
theorem cast_spell_no_slots_witness :
    c2State.get_entity c2Action.actor_id = some c2Actor ∧
    c2Loader.get_spell c2Action.spell_id = some c2Spell ∧
    c2Actor.spell_slots.current = 0 ∧
    resolve_cast_spell c2Loader (fun _ _ => 1) c2Action c2State =
      some ({ success := false, narration := "Spell failed: no spell slots available." },
        c2State) :=
  ⟨by decide, by decide, by decide,
    cast_spell_no_slots c2Loader (fun _ _ => 1) c2Action c2State c2Actor c2Spell
      (by decide) (by decide) (by decide)⟩

/-- C9.  When the slot check succeeds but the cast then fails - because the
resolved target list is empty, a status spell lacks its payload, or the
category is unrecognized - the result is success = false while the returned
state keeps the spell slot consumed: the failure path is not atomic. -/
theorem cast_spell_failure_consumes_slot (dl : DataLoader) (draw : Nat → Nat → Nat)
    (action : Action) (state : EncounterState) (actor : Entity) (spell : Spell)
    (h_actor : state.get_entity action.actor_id = some actor)
    (h_spell : dl.get_spell action.spell_id = some spell)
    (hpos : 0 < actor.spell_slots.current)
    (hfail :
      select_spell_targets spell action.target_id
          (state.set_entity action.actor_id (fun _ =>
            { actor with spell_slots :=
              { actor.spell_slots with current := actor.spell_slots.current - 1 } }))
          { actor with spell_slots :=
            { actor.spell_slots with current := actor.spell_slots.current - 1 } } = [] ∨
      (spell.category = "status" ∧ spell.status_effect = none) ∨
      (spell.category ≠ "damage" ∧ spell.category ≠ "heal" ∧ spell.category ≠ "status")) :
    ∃ res : ResolutionResult,
      resolve_cast_spell dl draw action state =
        some (res, state.set_entity action.actor_id (fun _ =>
          { actor with spell_slots :=
            { actor.spell_slots with current := actor.spell_slots.current - 1 } })) ∧
      res.success = false := by
  have huse : actor.spell_slots.use_slot =
      (true, { actor.spell_slots with current := actor.spell_slots.current - 1 }) := by
    unfold SpellSlots.use_slot
    rw [if_pos hpos]
  unfold resolve_cast_spell
  rw [h_actor, h_spell]
  simp only [huse]
  rcases hfail with hempty | ⟨hstat, hnone⟩ | ⟨h1, h2, h3⟩
  · simp [hempty]
  · by_cases hempty : select_spell_targets spell action.target_id
        (state.set_entity action.actor_id (fun _ =>
          { actor with spell_slots :=
            { actor.spell_slots with current := actor.spell_slots.current - 1 } }))
        { actor with spell_slots :=
          { actor.spell_slots with current := actor.spell_slots.current - 1 } } = []
    · simp [hempty]
    · obtain ⟨t0, ts, htl⟩ := List.exists_cons_of_ne_nil hempty
      simp [htl, hstat, hnone]
  · by_cases hempty : select_spell_targets spell action.target_id
        (state.set_entity action.actor_id (fun _ =>
          { actor with spell_slots :=
            { actor.spell_slots with current := actor.spell_slots.current - 1 } }))
        { actor with spell_slots :=
          { actor.spell_slots with current := actor.spell_slots.current - 1 } } = []
    · simp [hempty]
    · obtain ⟨t0, ts, htl⟩ := List.exists_cons_of_ne_nil hempty
      simp [htl, h1, h2, h3]

/-- Witness for C9: a one-slot mage casts a status spell with a missing
payload on itself; the cast fails but the slot stays spent. -/
theorem cast_spell_failure_consumes_slot_witness :
    0 < c9Actor.spell_slots.current ∧ c9Spell.category = "status" ∧
    c9Spell.status_effect = none ∧
    ∃ res : ResolutionResult,
      resolve_cast_spell c9Loader (fun _ _ => 1) c9Action c9State =
        some (res, c9State.set_entity c9Action.actor_id (fun _ =>
          { c9Actor with spell_slots :=
            { c9Actor.spell_slots with current := c9Actor.spell_slots.current - 1 } })) ∧
      res.success = false :=
  ⟨by decide, by decide, by decide,
    cast_spell_failure_consumes_slot c9Loader (fun _ _ => 1) c9Action c9State c9Actor c9Spell
      (by decide) (by decide) (by decide) (Or.inr (Or.inl ⟨by decide, by decide⟩))⟩

/-- C3 counterexample.  A party whose only player is dead (hp = 0) takes a
SHORT rest in exploration mode: the claim says a player with hp = 0 is left
unchanged, but _resolve_rest iterates over every player, so the dead player
is healed to hp = 2 and regains a spell slot. -/
theorem rest_dead_player_counterexample :
    restCexState.players.map Entity.hp = [0] ∧
    restCexState.players.map Entity.is_alive = [false] ∧
    (resolve_action restLoader 1 (fun _ _ => 1) restCexAction restCexState none).map
      (fun r => (r.1.success, r.2.1.players.map Entity.hp,
                 r.2.1.players.map (fun p => p.spell_slots.current))) =
      some (true, [2], [1]) := by
  decide

/-- C3 amended.  Resolving a REST action in exploration mode applies
recovery to every party player, the dead (hp = 0) included: SHORT rest heals
max(1, floor(max_hp / 4)) clamped to max_hp and restores one spell slot when
max slots > 0 (capped at max); LONG rest sets hp = max_hp and spell slots to
max. -/
theorem rest_recovers_every_player (dl : DataLoader) (d20roll : Nat)
    (draw : Nat → Nat → Nat) (action : Action) (gs : GlobalGameState)
    (es : Option EncounterState) (rt : String)
    (hmode : gs.game_mode = GameMode.exploration)
    (htype : action.action_type = ActionType.rest)
    (hrt : action.rest_type = some rt)
    (hvalid : rt = "short" ∨ rt = "long") :
    (∃ res gs₁, resolve_action dl d20roll draw action gs es = some (res, gs₁, es) ∧
      res.success = true ∧
      gs₁.players = gs.players.map
        (fun p => if rt = "short" then short_rest_player p else long_rest_player p) ∧
      gs₁.dungeon_state = gs.dungeon_state.mark_rested gs.current_room_id) ∧
    (∀ p : Entity,
      (short_rest_player p).hp = min (p.hp + max 1 (p.max_hp.tdiv 4)) p.max_hp ∧
      (short_rest_player p).spell_slots.current =
        (if 0 < p.spell_slots.max then min (p.spell_slots.current + 1) p.spell_slots.max
         else p.spell_slots.current)) ∧
    (∀ p : Entity,
      (long_rest_player p).hp = p.max_hp ∧
      (long_rest_player p).spell_slots.current = p.spell_slots.max) := by
  refine ⟨?_, ?_, ?_⟩
  · have hres : resolve_rest action gs =
        some ({ success := true,
                narration := if rt = "short" then "The party takes a short rest."
                             else "The party takes a long rest." },
          { gs with
            players := gs.players.map
              (fun p => if rt = "short" then short_rest_player p else long_rest_player p),
            dungeon_state := gs.dungeon_state.mark_rested gs.current_room_id }) := by
      unfold resolve_rest
      rw [hrt]
      dsimp only
      rw [if_pos hvalid]
    have happ : resolve_action dl d20roll draw action gs es =
        (resolve_rest action gs).map (fun r => (r.1, r.2, es)) := by
      unfold resolve_action
      rw [hmode]
      dsimp only
      rw [if_pos htype]
    rw [happ, hres]
    exact ⟨_, _, rfl, rfl, rfl, rfl⟩
  · intro p
    constructor
    · by_cases hs : 0 < p.spell_slots.max
      · simp [short_rest_player, Entity.heal, SpellSlots.restore, hs]
      · simp [short_rest_player, Entity.heal, hs]
    · by_cases hs : 0 < p.spell_slots.max
      · simp [short_rest_player, Entity.heal, SpellSlots.restore, hs]
      · simp [short_rest_player, Entity.heal, hs]
  · intro p
    exact ⟨rfl, rfl⟩

/-- Witness for the amended C3 at a concrete party of one dead and one
wounded player, short rest. -/
theorem rest_recovers_every_player_witness :
    restCexState.game_mode = GameMode.exploration ∧
    restCexAction.action_type = ActionType.rest ∧
    restCexAction.rest_type = some "short" ∧
    (∃ res gs₁,
      resolve_action restLoader 1 (fun _ _ => 1) restCexAction restCexState none =
        some (res, gs₁, none) ∧
      res.success = true ∧
      gs₁.players = restCexState.players.map
        (fun p => if "short" = "short" then short_rest_player p else long_rest_player p) ∧
      gs₁.dungeon_state =
        restCexState.dungeon_state.mark_rested restCexState.current_room_id) :=
  ⟨rfl, rfl, rfl,
    (rest_recovers_every_player restLoader 1 (fun _ _ => 1) restCexAction restCexState
      none "short" rfl rfl rfl (Or.inl rfl)).1⟩

/-- C1.  For a resolved ATTACK whose actor, target and attack data resolve,
the attack hits exactly when d20 + effective attack modifier + to_hit
modifier is at least the effective AC (ties hit); on a hit the target ends
at hp = max(0, hp - rolled damage) with any attached status payload applied,
on a miss the whole state (hence target HP and status effects) is
unchanged. -/
theorem attack_resolution_spec (dl : DataLoader) (d20roll : Nat)
    (draw : Nat → Nat → Nat) (action : Action) (state : EncounterState)
    (actor target : Entity) (attack : Attack) (ds : String) (dmgRoll : RollResult)
    (h_actor : state.get_entity action.actor_id = some actor)
    (h_target : state.get_entity (action.target_id.getD "") = some target)
    (h_attack : dl.get_attack action.attack_id = some attack)
    (h_ds : attack.damage = some ds)
    (h_roll : roll_dice ds draw = some dmgRoll) :
    ∃ res state₂, resolve_attack dl d20roll draw action state = some (res, state₂) ∧
      res.success = true ∧
      ((target.ac + target.get_ac_modifier ≤
          (d20roll : Int) + actor.get_attack_modifier + attack.to_hit_modifier.getD 0) →
        state₂.get_entity (action.target_id.getD "") = some
          (match attack.status_effect with
           | some payload =>
             apply_status_effect (target.take_damage dmgRoll.total).1 payload
               (some actor.entity_id)
           | none => (target.take_damage dmgRoll.total).1) ∧
        (target.take_damage dmgRoll.total).1.hp = max 0 (target.hp - dmgRoll.total)) ∧
      (¬ (target.ac + target.get_ac_modifier ≤
          (d20roll : Int) + actor.get_attack_modifier + attack.to_hit_modifier.getD 0) →
        state₂ = state) := by
  have htid : target.entity_id = action.target_id.getD "" :=
    get_entity_id _ _ _ h_target
  by_cases hineq : target.ac + target.get_ac_modifier ≤
      (d20roll : Int) + actor.get_attack_modifier + attack.to_hit_modifier.getD 0
  · cases hpay : attack.status_effect with
    | none =>
      have hres : resolve_attack dl d20roll draw action state =
          some ({ success := true, narration := actor.name ++ " hits " ++ target.name ++ "." },
            state.set_entity target.entity_id
              (fun t => (t.take_damage dmgRoll.total).1)) := by
        unfold resolve_attack
        rw [h_actor, h_target]
        dsimp only
        rw [h_attack]
        dsimp only
        rw [if_pos hineq, h_ds]
        dsimp only
        rw [h_roll]
        dsimp only
        rw [hpay]
      refine ⟨_, _, hres, rfl, ?_, fun hn => absurd hineq hn⟩
      intro _
      refine ⟨?_, rfl⟩
      dsimp only
      rw [htid]
      exact get_entity_set_entity state _ _ target (fun x => rfl) h_target
    | some payload =>
      have hres : resolve_attack dl d20roll draw action state =
          some ({ success := true, narration := actor.name ++ " hits " ++ target.name ++ "." },
            (state.set_entity target.entity_id
              (fun t => (t.take_damage dmgRoll.total).1)).set_entity target.entity_id
              (fun t => apply_status_effect t payload (some actor.entity_id))) := by
        unfold resolve_attack
        rw [h_actor, h_target]
        dsimp only
        rw [h_attack]
        dsimp only
        rw [if_pos hineq, h_ds]
        dsimp only
        rw [h_roll]
        dsimp only
        rw [hpay]
      refine ⟨_, _, hres, rfl, ?_, fun hn => absurd hineq hn⟩
      intro _
      refine ⟨?_, rfl⟩
      dsimp only
      rw [htid]
      have h1 : (state.set_entity (action.target_id.getD "")
            (fun t => (t.take_damage dmgRoll.total).1)).get_entity
            (action.target_id.getD "") = some (target.take_damage dmgRoll.total).1 :=
        get_entity_set_entity state _ _ target (fun x => rfl) h_target
      exact get_entity_set_entity _ _ _ _ (fun x => rfl) h1
  · have hres : resolve_attack dl d20roll draw action state =
        some ({ success := true, narration := actor.name ++ " misses " ++ target.name ++ "." },
          state) := by
      unfold resolve_attack
      rw [h_actor, h_target]
      dsimp only
      rw [h_attack]
      dsimp only
      rw [if_neg hineq]
    exact ⟨_, _, hres, rfl, fun hc => absurd hc hineq, fun _ => rfl⟩

/-- Witness for C1 at a concrete hit: d20 = 20, damage roll 1d6+1 drawn as 4,
stun rider attached. -/
theorem attack_resolution_spec_witness :
    c1State.get_entity c1Action.actor_id = some c1Actor ∧
    c1State.get_entity (c1Action.target_id.getD "") = some c1Target ∧
    c1Loader.get_attack c1Action.attack_id = some c1Attack ∧
    c1Attack.damage = some "1d6+1" ∧
    roll_dice "1d6+1" (fun _ _ => 4) = some c1Roll ∧
    (∃ res state₂,
      resolve_attack c1Loader 20 (fun _ _ => 4) c1Action c1State = some (res, state₂) ∧
      res.success = true ∧
      ((c1Target.ac + c1Target.get_ac_modifier ≤
          ((20 : Nat) : Int) + c1Actor.get_attack_modifier + c1Attack.to_hit_modifier.getD 0) →
        state₂.get_entity (c1Action.target_id.getD "") = some
          (match c1Attack.status_effect with
           | some payload =>
             apply_status_effect (c1Target.take_damage c1Roll.total).1 payload
               (some c1Actor.entity_id)
           | none => (c1Target.take_damage c1Roll.total).1) ∧
        (c1Target.take_damage c1Roll.total).1.hp = max 0 (c1Target.hp - c1Roll.total)) ∧
      (¬ (c1Target.ac + c1Target.get_ac_modifier ≤
          ((20 : Nat) : Int) + c1Actor.get_attack_modifier + c1Attack.to_hit_modifier.getD 0) →
        state₂ = c1State)) :=
  ⟨by decide, by decide, by decide, by decide, by decide,
    attack_resolution_spec c1Loader 20 (fun _ _ => 4) c1Action c1State c1Actor c1Target
      c1Attack "1d6+1" c1Roll (by decide) (by decide) (by decide) (by decide) (by decide)⟩

/-- C4.  With the active id occurring in a duplicate-free initiative order of
N entity ids, advance_turn moves to the next id (wrapping), increments the
round exactly on the wrapping call, and N consecutive calls return to the
starting entity with the round larger by exactly 1. -/
theorem advance_turn_cycle_spec (s : EncounterState)
    (hmem : s.active_entity_id ∈ s.initiative_order)
    (hnd : s.initiative_order.Nodup) :
    (s.advance_turn.active_entity_id =
      s.initiative_order.getD
        ((s.initiative_order.indexOf s.active_entity_id + 1) %
          s.initiative_order.length) "" ∧
     (s.advance_turn.round = s.round + 1 ↔
       (s.initiative_order.indexOf s.active_entity_id + 1) %
         s.initiative_order.length = 0)) ∧
    ((EncounterState.advance_turn)^[s.initiative_order.length] s).active_entity_id =
      s.active_entity_id ∧
    ((EncounterState.advance_turn)^[s.initiative_order.length] s).round =
      s.round + 1 := by
  have hi : s.initiative_order.indexOf s.active_entity_id <
      s.initiative_order.length := List.indexOf_lt_length.2 hmem
  have hact : s.active_entity_id =
      s.initiative_order.getD (s.initiative_order.indexOf s.active_entity_id) "" := by
    rw [List.getD_eq_getElem _ _ hi]
    exact (List.getElem_indexOf hi).symm
  have hn : 0 < s.initiative_order.length := Nat.lt_of_le_of_lt (Nat.zero_le _) hi
  have hstep := advance_turn_step s _ hi hnd hact
  obtain ⟨h1, h2, h3⟩ :=
    advance_turn_iterate s.initiative_order.length s _ hi hnd hact
  refine ⟨⟨?_, ?_⟩, ?_, ?_⟩
  · rw [hstep]
  · rw [hstep]
    by_cases hc : (s.initiative_order.indexOf s.active_entity_id + 1) %
        s.initiative_order.length = 0
    · simp [hc]
    · simp only [if_neg hc]
      constructor
      · intro habs
        omega
      · intro habs
        exact absurd habs hc
  · rw [h2, Nat.add_mod_right,
      Nat.mod_eq_of_lt hi]
    exact hact.symm
  · rw [h3, Nat.add_div_right _ hn,
      Nat.div_eq_of_lt hi]
    push_cast
    omega

/-- Witness for C4 at a two-entity initiative order: one step moves to the
second entity, two steps come back and bump the round once. -/
theorem advance_turn_cycle_spec_witness :
    "p1" ∈ ["p1", "gob1"] ∧ (["p1", "gob1"] : List String).Nodup ∧
    ((c4State.advance_turn.active_entity_id =
      c4State.initiative_order.getD
        ((c4State.initiative_order.indexOf c4State.active_entity_id + 1) %
          c4State.initiative_order.length) "" ∧
     (c4State.advance_turn.round = c4State.round + 1 ↔
       (c4State.initiative_order.indexOf c4State.active_entity_id + 1) %
         c4State.initiative_order.length = 0)) ∧
    ((EncounterState.advance_turn)^[c4State.initiative_order.length]
        c4State).active_entity_id = c4State.active_entity_id ∧
    ((EncounterState.advance_turn)^[c4State.initiative_order.length]
        c4State).round = c4State.round + 1) :=
  ⟨by decide, by decide, advance_turn_cycle_spec c4State (by decide) (by decide)⟩

/-- C7.  For every string matching the dice regex with count N, sides M and
signed modifier K, and draws within [1, M] (the randint contract), roll_dice
returns a result with exactly N rolls, each within [1, M], whose total is
their sum plus K; a string matching the pattern for no N, M, K is rejected
(none, modelling the ValueError) rather than producing a roll. -/
theorem dice_roll_spec (s : String) (draw : Nat → Nat → Nat) :
    (∀ N M K, dicePattern s N M K →
      (∀ i, i < N → 1 ≤ draw M i ∧ draw M i ≤ M) →
      ∃ r, roll_dice s draw = some r ∧
        r.rolls.length = N ∧
        (∀ x ∈ r.rolls, 1 ≤ x ∧ x ≤ (M : Int)) ∧
        r.total = r.rolls.sum + K) ∧
    ((∀ N M K, ¬ dicePattern s N M K) → roll_dice s draw = none) := by
  constructor
  · intro N M K hp hdraw
    have hparse := parse_dice_complete s N M K hp
    have hroll : roll_dice s draw = some
        { total := ((List.range N).map (fun i => (draw M i : Int))).sum + K,
          rolls := (List.range N).map (fun i => (draw M i : Int)),
          modifier := K, expression := s } := by
      unfold roll_dice
      rw [hparse]
    refine ⟨_, hroll, ?_, ?_, rfl⟩
    · simp
    · intro x hx
      simp only [List.mem_map, List.mem_range] at hx
      obtain ⟨i, hi, rfl⟩ := hx
      obtain ⟨hlo, hhi⟩ := hdraw i hi
      exact ⟨by exact_mod_cast hlo, by exact_mod_cast hhi⟩
  · intro hnone
    cases hcase : parse_dice s with
    | none =>
      unfold roll_dice
      rw [hcase]
    | some nmk =>
      obtain ⟨N, M, K⟩ := nmk
      exact absurd (parse_dice_sound s N M K hcase) (hnone N M K)

/-- Witness for C7 on the string 2d6+1 with a draw function returning 3:
two rolls of 3, total 7. -/
theorem dice_roll_spec_witness :
    dicePattern "2d6+1" 2 6 1 ∧
    ∃ r, roll_dice "2d6+1" (fun _ _ => 3) = some r ∧
      r.rolls.length = 2 ∧
      (∀ x ∈ r.rolls, 1 ≤ x ∧ x ≤ (6 : Int)) ∧
      r.total = r.rolls.sum + 1 :=
  have hpat : dicePattern "2d6+1" 2 6 1 :=
    ⟨['2'], ['6'], ['+', '1'], by decide, by decide, by decide, by decide,
      by decide, by decide, by decide,
      Or.inr ⟨['1'], by decide, by decide, Or.inl ⟨rfl, by decide⟩⟩⟩
  ⟨hpat, (dice_roll_spec "2d6+1" (fun _ _ => 3)).1 2 6 1 hpat
    (fun i _ => ⟨by decide, by decide⟩)⟩

/-- Every member of a rational list is at most its foldr max 0. -/
lemma le_foldr_max (l : List Nat) (x : Nat) (hx : x ∈ l) : x ≤ l.foldr max 0 := by
  induction l with
  | nil => simp at hx
  | cons a t ih =>
    rcases List.mem_cons.1 hx with rfl | h
    · exact le_max_left _ _
    · exact le_trans (ih h) (le_max_right _ _)

/-- foldr max 0 of a rational list is a member or zero. -/
lemma foldr_max_mem (l : List Nat) : l.foldr max 0 ∈ l ∨ l.foldr max 0 = 0 := by
  induction l with
  | nil => right; rfl
  | cons a t ih =>
    rcases le_total a (t.foldr max 0) with h | h
    · rw [List.foldr_cons, max_eq_right h]
      rcases ih with hm | h0
      · exact Or.inl (List.mem_cons_of_mem _ hm)
      · exact Or.inr h0
    · rw [List.foldr_cons, max_eq_left h]
      exact Or.inl (List.mem_cons_self _ _)

/-- Characterization of pick_intent over any nonempty score list with
nonnegative scores, in terms of the top score M and how many items attain
it. -/
lemma pick_intent_characterization (scores : List (String × Nat))
    (hne : scores ≠ []) :
    ((scores.map Prod.snd).foldr max 0 = 0 →
      pick_intent scores = ("unknown", 0, false)) ∧
    (0 < (scores.map Prod.snd).foldr max 0 →
      scores.countP (fun p => p.2 == (scores.map Prod.snd).foldr max 0) = 1 →
      (pick_intent scores).2.2 = false ∧
      (pick_intent scores).2.1 =
        min 1 (1 / 2 + (((scores.map Prod.snd).foldr max 0 : Nat) : ℚ) / 6)) ∧
    (0 < (scores.map Prod.snd).foldr max 0 →
      2 ≤ scores.countP (fun p => p.2 == (scores.map Prod.snd).foldr max 0) →
      (pick_intent scores).2.2 = true ∧ (pick_intent scores).2.1 = 6 / 10) := by
  haveI : IsTotal (String × Nat) (fun a b => b.2 ≤ a.2) :=
    ⟨fun a b => le_total b.2 a.2⟩
  haveI : IsTrans (String × Nat) (fun a b => b.2 ≤ a.2) :=
    ⟨fun a b c h1 h2 => le_trans h2 h1⟩
  obtain ⟨s₀, rest, rfl⟩ := List.exists_cons_of_ne_nil hne
  set M := ((s₀ :: rest).map Prod.snd).foldr max 0 with hM
  have hperm : List.Perm ((s₀ :: rest).insertionSort (fun a b => b.2 ≤ a.2))
      (s₀ :: rest) :=
    List.perm_insertionSort _ _
  have hsort : List.Sorted (fun a b : String × Nat => b.2 ≤ a.2)
      ((s₀ :: rest).insertionSort (fun a b => b.2 ≤ a.2)) :=
    List.sorted_insertionSort _ _
  cases hl' : (s₀ :: rest).insertionSort (fun a b => b.2 ≤ a.2) with
  | nil =>
    have := hperm.length_eq
    rw [hl'] at this
    simp at this
  | cons t ts =>
    rw [hl'] at hperm hsort
    have hpick : pick_intent (s₀ :: rest) =
        (if t.2 ≤ 0 then ("unknown", 0, false)
         else (t.1,
           (if t.2 = (ts.headD ("", 0)).2 then (6 / 10 : ℚ)
            else min 1 (1 / 2 + (t.2 : ℚ) / 6)),
           decide (t.2 = (ts.headD ("", 0)).2))) := by
      unfold pick_intent
      dsimp only
      rw [hl']
      rfl
    have htmem : t ∈ s₀ :: rest := hperm.mem_iff.1 (List.mem_cons_self _ _)
    have htle : t.2 ≤ M := le_foldr_max _ _ (List.mem_map_of_mem Prod.snd htmem)
    have hts : ∀ q ∈ ts, q.2 ≤ t.2 := (List.sorted_cons.1 hsort).1
    have htop : t.2 = M := by
      refine le_antisymm htle ?_
      rcases foldr_max_mem ((s₀ :: rest).map Prod.snd) with hm | h0
      · obtain ⟨q, hq, hq2⟩ := List.mem_map.1 hm
        have hq' : q ∈ t :: ts := hperm.mem_iff.2 hq
        rcases List.mem_cons.1 hq' with rfl | hq''
        · exact le_of_eq hq2.symm
        · rw [← hM] at hq2
          rw [← hq2]
          exact hts q hq''
      · rw [← hM] at h0
        rw [h0]
        exact Nat.zero_le _
    have hcount : (s₀ :: rest).countP (fun p => p.2 == M) =
        (t :: ts).countP (fun p => p.2 == M) := (hperm.countP_eq _).symm
    have hcons : (t :: ts).countP (fun p => p.2 == M) =
        ts.countP (fun p => p.2 == M) + 1 := by
      rw [List.countP_cons]
      simp [htop]
    refine ⟨?_, ?_, ?_⟩
    · intro h0
      rw [hpick, if_pos (by rw [htop, h0])]
    · intro hpos hcnt
      have htpos : ¬ t.2 ≤ 0 := by rw [htop]; exact not_le.2 hpos
      have hcnt0 : ts.countP (fun p => p.2 == M) = 0 := by
        rw [hcount, hcons] at hcnt
        omega
      have hnot : ∀ q ∈ ts, q.2 ≠ M := by
        intro q hq
        have := List.countP_eq_zero.1 hcnt0 q hq
        simpa using this
      have hsecond : t.2 ≠ (ts.headD ("", 0)).2 := by
        cases ts with
        | nil =>
          simp only [List.headD]
          rw [htop]
          exact ne_of_gt hpos
        | cons q ts' =>
          simp only [List.headD]
          rw [htop]
          exact fun habs => hnot q (List.mem_cons_self _ _) habs.symm
      rw [hpick, if_neg htpos]
      constructor
      · show decide (t.2 = (ts.headD ("", 0)).2) = false
        exact decide_eq_false hsecond
      · show (if t.2 = (ts.headD ("", 0)).2 then (6 / 10 : ℚ)
            else min 1 (1 / 2 + (t.2 : ℚ) / 6)) = min 1 (1 / 2 + ((M : Nat) : ℚ) / 6)
        rw [if_neg hsecond, htop]
    · intro hpos hcnt
      have htpos : ¬ t.2 ≤ 0 := by rw [htop]; exact not_le.2 hpos
      have hcnt1 : 1 ≤ ts.countP (fun p => p.2 == M) := by
        rw [hcount, hcons] at hcnt
        omega
      have hex : ∃ q ∈ ts, q.2 = M := by
        obtain ⟨q, hq, hq2⟩ :=
          List.countP_pos_iff.1 (Nat.lt_of_lt_of_le Nat.zero_lt_one hcnt1)
        exact ⟨q, hq, by simpa using hq2⟩
      obtain ⟨q, hq, hq2⟩ := hex
      cases ts with
      | nil => simp at hq
      | cons q₀ ts' =>
        have hsecond : t.2 = (List.headD (q₀ :: ts') ("", 0)).2 := by
          simp only [List.headD]
          have hq₀le : q₀.2 ≤ t.2 := hts q₀ (List.mem_cons_self _ _)
          have hMleq₀ : M ≤ q₀.2 := by
            rcases List.mem_cons.1 hq with rfl | hq'
            · exact le_of_eq hq2.symm
            · have := (List.sorted_cons.1 (List.sorted_cons.1 hsort).2).1 q hq'
              rw [← hq2]
              exact this
          rw [htop]
          exact le_antisymm hMleq₀ (htop ▸ hq₀le)
        rw [hpick, if_neg htpos]
        constructor
        · show decide (t.2 = (List.headD (q₀ :: ts') ("", 0)).2) = true
          exact decide_eq_true hsecond
        · show (if t.2 = (List.headD (q₀ :: ts') ("", 0)).2 then (6 / 10 : ℚ)
              else min 1 (1 / 2 + (t.2 : ℚ) / 6)) = 6 / 10
          rw [if_pos hsecond]

/-- C8.  For every score mapping the parser produces (keyword hits plus the
name-match bonuses): top score 0 yields intent unknown with confidence 0 and
no ambiguity; a unique positive top score yields is_ambiguous = false and
confidence min(1, 1/2 + top/6); a tie of two or more for the positive top
yields is_ambiguous = true and confidence 6/10. -/
theorem pick_intent_spec (ph : String → Bool) (sm am rm et : Bool) :
    (((score_intents ph sm am rm et).map Prod.snd).foldr max 0 = 0 →
      pick_intent (score_intents ph sm am rm et) = ("unknown", 0, false)) ∧
    (0 < ((score_intents ph sm am rm et).map Prod.snd).foldr max 0 →
      (score_intents ph sm am rm et).countP
        (fun p => p.2 == ((score_intents ph sm am rm et).map Prod.snd).foldr max 0) = 1 →
      (pick_intent (score_intents ph sm am rm et)).2.2 = false ∧
      (pick_intent (score_intents ph sm am rm et)).2.1 =
        min 1 (1 / 2 +
          ((((score_intents ph sm am rm et).map Prod.snd).foldr max 0 : Nat) : ℚ) / 6)) ∧
    (0 < ((score_intents ph sm am rm et).map Prod.snd).foldr max 0 →
      2 ≤ (score_intents ph sm am rm et).countP
        (fun p => p.2 == ((score_intents ph sm am rm et).map Prod.snd).foldr max 0) →
      (pick_intent (score_intents ph sm am rm et)).2.2 = true ∧
      (pick_intent (score_intents ph sm am rm et)).2.1 = 6 / 10) := by
  have hne : score_intents ph sm am rm et ≠ [] := by
    unfold score_intents intent_keywords
    simp
  exact pick_intent_characterization (score_intents ph sm am rm et) hne

/-- Witness for C8: no keyword hits, a spell-name match only; the unique top
score is the cast_spell bonus 3, so the parse is unambiguous with confidence
min(1, 1/2 + 3/6) = 1. -/
theorem pick_intent_spec_witness :
    0 < ((score_intents (fun _ => false) true false false false).map Prod.snd).foldr max 0 ∧
    (score_intents (fun _ => false) true false false false).countP
      (fun p => p.2 ==
        ((score_intents (fun _ => false) true false false false).map Prod.snd).foldr max 0) = 1 ∧
    ((pick_intent (score_intents (fun _ => false) true false false false)).2.2 = false ∧
     (pick_intent (score_intents (fun _ => false) true false false false)).2.1 =
       min 1 (1 / 2 +
         ((((score_intents (fun _ => false) true false false false).map
             Prod.snd).foldr max 0 : Nat) : ℚ) / 6)) :=
  ⟨by decide, by decide,
    (pick_intent_spec (fun _ => false) true false false false).2.1 (by decide) (by decide)⟩

end GameMaster
